import Mathlib

/-!
Verification development for the sleekcms-client library.

The TypeScript source is shallowly embedded: JSON values become an inductive
type, JavaScript truthiness and string-prefix tests become explicit helper
functions, network and cache I/O become explicit state passing with call
counters, and exceptions become Except values.  Each definition mirrors a
named function of the source; variant files that redeclare a name are kept
apart by namespaces.
-/

/-- JavaScript string.startsWith: plain code-unit prefix test. -/
def jsStartsWith (s pre : String) : Bool :=
  pre.data.isPrefixOf s.data

/-- JavaScript truthiness of an optional string argument: undefined and the
empty string are falsy. -/
def strOptTruthy (q : Option String) : Bool :=
  match q with
  | none => false
  | some s => s ≠ ""

/-- Map.get / plain object property lookup over an association list. -/
def getAssoc {α : Type} (m : List (String × α)) (k : String) : Option α :=
  match m with
  | [] => none
  | (k', v) :: rest => if k' = k then some v else getAssoc rest k

/-- Map.set / property assignment over an association list: replaces the
binding for the key when present, appends otherwise. -/
def setAssoc {α : Type} (m : List (String × α)) (k : String) (v : α) : List (String × α) :=
  match m with
  | [] => [(k, v)]
  | (k', v') :: rest => if k' = k then (k, v) :: rest else (k', v') :: setAssoc rest k v

/-- Parsed JSON values, the dynamic data the client manipulates.  Numbers are
modelled as integers; none of the verified code paths does arithmetic on
document values. -/
inductive Json where
  | null
  | bool (b : Bool)
  | num (n : Int)
  | str (s : String)
  | arr (elems : List Json)
  | obj (fields : List (String × Json))

/-- JavaScript property access v.k: defined on objects, undefined (none)
elsewhere. -/
def jField (v : Json) (k : String) : Option Json :=
  match v with
  | Json.obj fields => getAssoc fields k
  | _ => none

/-- JavaScript truthiness of a JSON value. -/
def jsTruthy (v : Json) : Bool :=
  match v with
  | Json.null => false
  | Json.bool b => b
  | Json.num n => n ≠ 0
  | Json.str s => s ≠ ""
  | _ => true

/-- The defensive path read used throughout the source:
typeof p._path === "string" ? p._path : "". -/
def pathStr (p : Json) : String :=
  match jField p "_path" with
  | some (Json.str s) => s
  | _ => ""

/-- View of a fetched value as the typed pages facet
(SleekSiteContent.pages = Array or undefined); non-array values are outside
the document type and are read as absent. -/
def asPagesOpt (v : Json) : Option (List Json) :=
  match v with
  | Json.arr l => some l
  | _ => none

/-- data.pages read through the document type: the pages array when present,
absent otherwise. -/
def pagesOpt (data : Json) : Option (List Json) :=
  match jField data "pages" with
  | some (Json.arr l) => some l
  | _ => none

/-- JavaScript images[name] on an arbitrary value: property lookup on objects
(undefined, i.e. null marker, when missing), undefined on non-objects. -/
def imgLookup (img : Json) (name : String) : Json :=
  match img with
  | Json.obj fields => (getAssoc fields name).getD Json.null
  | _ => Json.null

/- ------------------------------------------------------------------ -/
/-  src/lib.ts helpers                                                  -/
/- ------------------------------------------------------------------ -/

/-- lib.ts filterPagesByPath: (pages ?? []).filter(p => pth.startsWith(path))
with the defensive pathStr read. -/
def filterPagesByPath (pages : Option (List Json)) (path : String) : List Json :=
  (pages.getD []).filter (fun p => jsStartsWith (pathStr p) path)

/-- lib.ts extractSlugs: collect page._slug for pages whose _path starts with
the given path and whose _slug field is present and is a string. -/
def extractSlugs (pages : Option (List Json)) (path : String) : List String :=
  (pages.getD []).filterMap (fun page =>
    if jsStartsWith (pathStr page) path then
      match jField page "_slug" with
      | some (Json.str s) => some s
      | _ => none
    else none)

/-- The declared string slug of a page, when any (used to state the
specification-shaped characterization of extractSlugs). -/
def slugOf (page : Json) : Option String :=
  match jField page "_slug" with
  | some (Json.str s) => some s
  | _ => none

/-- lib.ts applyJmes: a falsy (absent or empty) query returns the data
unchanged; otherwise the external jmespath.search black box (passed as a
parameter, per the spec the evaluator is an external collaborator) is
applied. -/
def applyJmes (jmes : Json → String → Json) (data : Json) (query : Option String) : Json :=
  match query with
  | none => data
  | some q => if q = "" then data else jmes data q

/-- Transport outcome of the env-tag resolve POST performed by fetchEnvTag:
the request can throw, return a non-ok status, or return ok with an optional
tag field in the body. -/
inductive ResolveOutcome where
  | fetchThrew
  | notOk
  | ok (tagField : Option String)
  deriving Repr, DecidableEq

/-- fetchEnvTag (identical body in lib.ts and in the cached index.ts
variant): returns data.tag when the response is ok and the tag field is
truthy; on every other outcome (network error is caught internally,
non-success status, missing or empty tag) returns the alias env unchanged.
The source never lets an exception escape, so the model is a total
function. -/
def fetchEnvTag (o : ResolveOutcome) (env : String) : String :=
  match o with
  | ResolveOutcome.ok (some t) => if t = "" then env else t
  | _ => env

example : fetchEnvTag ResolveOutcome.fetchThrew "latest" = "latest" := rfl
example : fetchEnvTag (ResolveOutcome.ok (some "abc123")) "latest" = "abc123" := rfl

/- ------------------------------------------------------------------ -/
/-  src/index.ts: createClient (sync client) accessors                  -/
/- ------------------------------------------------------------------ -/

/-- One accessor invocation of the public client surface. -/
inductive Call where
  | getContent (query : Option String)
  | getPages (path : String)
  | getPage (path : String)
  | getEntry (handle : String)
  | getSlugs (path : String)
  | getImage (name : String)
  | getOptions (name : String)

/-- The sync client built by createClient: all accessors are pure reads over
the prefetched document data (plus the external jmespath evaluator for
getContent).  Thrown errors become Except.error with the message of the source. -/
def syncCall (jmes : Json → String → Json) (data : Json) : Call → Except String Json
  | Call.getContent query => Except.ok (applyJmes jmes data query)
  | Call.getPages path =>
      if path = "" then Except.error "[SleekCMS] path is required for getPages"
      else Except.ok (Json.arr (filterPagesByPath (pagesOpt data) path))
  | Call.getPage path =>
      if path = "" then Except.error "[SleekCMS] path is required for getPage"
      else
        Except.ok ((((pagesOpt data).getD []).find? (fun p => pathStr p == path)).getD Json.null)
  | Call.getEntry handle =>
      if handle = "" then Except.error "[SleekCMS] handle is required for getEntry"
      else
        match jField data "entries" with
        | some (Json.obj fields) => Except.ok ((getAssoc fields handle).getD Json.null)
        | _ => Except.ok Json.null
  | Call.getSlugs path =>
      if path = "" then Except.error "[SleekCMS] path is required for getSlugs"
      else Except.ok (Json.arr ((extractSlugs (pagesOpt data) path).map Json.str))
  | Call.getImage name =>
      if name = "" then Except.ok Json.null
      else
        match jField data "images" with
        | none => Except.ok Json.null
        | some images =>
            if jsTruthy images then Except.ok (imgLookup images name)
            else Except.ok Json.null
  | Call.getOptions name =>
      if name = "" then Except.ok Json.null
      else
        match jField data "options" with
        | some (Json.obj fields) =>
            match getAssoc fields name with
            | some (Json.arr l) => Except.ok (Json.arr l)
            | _ => Except.ok Json.null
        | _ => Except.ok Json.null

/- ------------------------------------------------------------------ -/
/-  src/index.ts: createAsyncClient                                     -/
/- ------------------------------------------------------------------ -/

/-- External collaborators of one async client instance: the content fetch
(fetchSiteContent keyed by the search parameter; each invocation may perform
network and cache I/O) and the jmespath evaluator. -/
structure AsyncEnv where
  fetch : Option String → Json
  jmes : Json → String → Json

/-- One accessor call on the async client.  The state is the internal
syncClient variable: none before the upgrade, some document afterwards.
Returns (result, new state, number of fetchSiteContent invocations made by
this call); zero invocations means zero network fetches. -/
def asyncStep (E : AsyncEnv) (st : Option Json) : Call → Except String Json × Option Json × Nat
  | Call.getContent query =>
      match st with
      | some d => (syncCall E.jmes d (Call.getContent query), some d, 0)
      | none =>
          if strOptTruthy query then (Except.ok (E.fetch query), none, 1)
          else
            let d := E.fetch none
            (syncCall E.jmes d (Call.getContent query), some d, 1)
  | Call.getPages path =>
      match st with
      | some d => (syncCall E.jmes d (Call.getPages path), some d, 0)
      | none =>
          let pages := E.fetch (some "pages")
          let res :=
            if path = "" then pages
            else Json.arr (filterPagesByPath (asPagesOpt pages) path)
          (Except.ok res, none, 1)
  | Call.getPage path =>
      match st with
      | some d => (syncCall E.jmes d (Call.getPage path), some d, 0)
      | none =>
          let pages := E.fetch (some "pages")
          let res :=
            match asPagesOpt pages with
            | none => Json.null
            | some l => (l.find? (fun p => pathStr p == path)).getD Json.null
          (Except.ok res, none, 1)
  | Call.getEntry handle =>
      match st with
      | some d => (syncCall E.jmes d (Call.getEntry handle), some d, 0)
      | none => (Except.ok (E.fetch (some ("entries." ++ handle))), none, 1)
  | Call.getSlugs path =>
      match st with
      | some d => (syncCall E.jmes d (Call.getSlugs path), some d, 0)
      | none =>
          let pages := E.fetch (some "pages")
          (Except.ok (Json.arr ((extractSlugs (asPagesOpt pages) path).map Json.str)), none, 1)
  | Call.getImage name =>
      match st with
      | some d => (syncCall E.jmes d (Call.getImage name), some d, 0)
      | none =>
          let images := E.fetch (some "images")
          let res := if jsTruthy images then imgLookup images name else Json.null
          (Except.ok res, none, 1)
  | Call.getOptions name =>
      match st with
      | some d => (syncCall E.jmes d (Call.getOptions name), some d, 0)
      | none =>
          let options := E.fetch (some "options")
          let res :=
            match jField options name with
            | some (Json.arr l) => Json.arr l
            | _ => Json.null
          (Except.ok res, none, 1)

/-- Sequential execution of a list of accessor calls on one async client
instance; returns the final state and the total number of fetchSiteContent
invocations. -/
def runCalls (E : AsyncEnv) (st : Option Json) : List Call → Option Json × Nat
  | [] => (st, 0)
  | c :: cs =>
      let r := asyncStep E st c
      let rest := runCalls E r.2.1 cs
      (rest.1, r.2.2 + rest.2)

/- ------------------------------------------------------------------ -/
/-  src/index.ts: cached fetchSiteContent (with cache adapter and       -/
/-  resolveEnv env-tag memoization)                                     -/
/- ------------------------------------------------------------------ -/

/-- The error thrown by fetchAndCache on a non-success response:
"[SleekCMS] Request failed (status): message". -/
structure FetchErr where
  status : Nat
  message : String
  deriving Repr, DecidableEq

/-- The parsed view of one string stored in a cache adapter.  JSON.parse and
JSON.stringify are modelled as the bijection between stored strings and
slots: malformed stands for a string JSON.parse rejects, bare for a parsed
value with no _ts field (the old format), envelope for the
JSON envelope with data and _ts written by fetchAndCache. -/
inductive CacheSlot where
  | malformed
  | bare (v : Json)
  | envelope (v : Json) (ts : Nat)

/-- A configured cache adapter: its backing store plus its failure behavior
(getItem throwing, setItem throwing).  A missing key models both a null
getItem result and the falsy empty string. -/
structure CacheCfg where
  store : List (String × CacheSlot)
  readThrows : Bool
  writeThrows : Bool

/-- Process-and-call state touched by fetchSiteContent: the module-level
envTagCache memo and the optional cache adapter passed in the options. -/
structure SCState where
  memo : List (String × String)
  cache : Option CacheCfg

/-- The external world during one fetchSiteContent call: the outcome of the
env-tag resolve POST (if one is made), the response of the content GET per
url, and Date.now(). -/
structure SCWorld where
  resolveOutcome : ResolveOutcome
  contentResp : String → Except FetchErr Json
  now : Nat

/-- Options destructured by fetchSiteContent.  env keeps its caller-supplied
value (the source defaults it to "latest" when undefined); cacheMinutes = 0
models both an absent and a zero cacheMinutes, which are equally falsy in
the `if (cacheMinutes)` test of the source. -/
structure SCOpts where
  siteToken : String
  env : String
  resolveEnv : Bool
  search : Option String
  lang : Option String
  cacheMinutes : Nat

/-- token.split("-") over the character list (structural, so that concrete
urls evaluate). -/
def splitDash : List Char → List (List Char)
  | [] => [[]]
  | c :: rest =>
      let r := splitDash rest
      if c = '-' then [] :: r
      else
        match r with
        | h :: t => (c :: h) :: t
        | [] => [[c]]

/-- Site id extracted by getBaseUrl: second component of the token split on
the dash; a missing component interpolates as the string undefined. -/
def siteIdOf (token : String) : String :=
  match splitDash token.data with
  | _ :: second :: _ => String.mk second
  | _ => "undefined"

/-- getUrl of the cached variant, built on its getBaseUrl (production host
https://pub.sleekcms.com/siteId): appends the environment segment and the
search and lang query parameters when they are truthy.  Percent-encoding of
parameter values is not modelled. -/
def getUrl (siteToken env : String) (search lang : Option String) : String :=
  let u0 := "https://pub.sleekcms.com/" ++ siteIdOf siteToken ++ "/" ++ env
  let u1 := if strOptTruthy search then u0 ++ "?search=" ++ search.getD "" else u0
  if strOptTruthy lang then
    u1 ++ (if strOptTruthy search then "&" else "?") ++ "lang=" ++ lang.getD ""
  else u1

/-- The envTagCache key used by fetchSiteContent. -/
def memoKey (siteToken env : String) : String :=
  siteToken ++ ":" ++ env

/-- The resolveEnv block of fetchSiteContent: when resolveEnv is set, look
the (siteToken, env) pair up in the module-level envTagCache; on a miss (or
a falsy stored tag, since the source re-tests `if (!tag)` on the stored
value) perform one resolve call, store its result, and build the url from
the tag.  Returns (url, new memo, number of resolve calls). -/
def resolveStep (w : SCWorld) (memo : List (String × String)) (o : SCOpts) :
    String × List (String × String) × Nat :=
  if o.resolveEnv then
    let key := memoKey o.siteToken o.env
    match getAssoc memo key with
    | some tag =>
        if tag = "" then
          let tag' := fetchEnvTag w.resolveOutcome o.env
          (getUrl o.siteToken tag' o.search o.lang, setAssoc memo key tag', 1)
        else (getUrl o.siteToken tag o.search o.lang, memo, 0)
    | none =>
        let tag' := fetchEnvTag w.resolveOutcome o.env
        (getUrl o.siteToken tag' o.search o.lang, setAssoc memo key tag', 1)
  else (getUrl o.siteToken o.env o.search o.lang, memo, 0)

/-- The fetchAndCache closure: one content GET; a non-success response
throws (propagated as Except.error) before any cache write; on success the
parsed data is written back as an envelope with the current time, a write
failure being swallowed. -/
def fetchAndCache (w : SCWorld) (cache : Option CacheCfg) (url : String) :
    Except FetchErr Json × Option CacheCfg :=
  match w.contentResp url with
  | Except.error e => (Except.error e, cache)
  | Except.ok data =>
      let cache' :=
        match cache with
        | none => none
        | some cfg =>
            if cfg.writeThrows then some cfg
            else some { cfg with store := setAssoc cfg.store url (CacheSlot.envelope data w.now) }
      (Except.ok data, cache')

/-- Result of one fetchSiteContent call: the returned or thrown value, the
url used as cache key, the updated process state, the number of content
GETs, and the number of env-tag resolve calls. -/
structure SCResult where
  result : Except FetchErr Json
  url : String
  state : SCState
  netCalls : Nat
  resolveCalls : Nat

/-- The cached fetchSiteContent of src/index.ts: resolve the environment tag
when requested, then consult the cache under the url key — a read that
throws or a stored string JSON.parse rejects falls through to the network;
a bare (timestamp-less) entry is returned as is; an envelope entry is
returned unless an expiration window is configured and the age of the entry
reaches it, in which case one refetch is attempted, an unsuccessful refetch
falling back to the expired data. -/
def fetchSiteContent (w : SCWorld) (st : SCState) (o : SCOpts) : SCResult :=
  let r := resolveStep w st.memo o
  let url := r.1
  let memo := r.2.1
  let resolveCalls := r.2.2
  match st.cache with
  | none =>
      let fc := fetchAndCache w none url
      ⟨fc.1, url, ⟨memo, fc.2⟩, 1, resolveCalls⟩
  | some cfg =>
      if cfg.readThrows then
        let fc := fetchAndCache w (some cfg) url
        ⟨fc.1, url, ⟨memo, fc.2⟩, 1, resolveCalls⟩
      else
        match getAssoc cfg.store url with
        | none =>
            let fc := fetchAndCache w (some cfg) url
            ⟨fc.1, url, ⟨memo, fc.2⟩, 1, resolveCalls⟩
        | some CacheSlot.malformed =>
            let fc := fetchAndCache w (some cfg) url
            ⟨fc.1, url, ⟨memo, fc.2⟩, 1, resolveCalls⟩
        | some (CacheSlot.bare v) =>
            ⟨Except.ok v, url, ⟨memo, some cfg⟩, 0, resolveCalls⟩
        | some (CacheSlot.envelope v ts) =>
            if o.cacheMinutes ≠ 0 then
              if (w.now : Int) - (ts : Int) ≥ (o.cacheMinutes * 60 * 1000 : Nat) then
                let fc := fetchAndCache w (some cfg) url
                match fc.1 with
                | Except.ok d => ⟨Except.ok d, url, ⟨memo, fc.2⟩, 1, resolveCalls⟩
                | Except.error _ => ⟨Except.ok v, url, ⟨memo, fc.2⟩, 1, resolveCalls⟩
              else ⟨Except.ok v, url, ⟨memo, some cfg⟩, 0, resolveCalls⟩
            else ⟨Except.ok v, url, ⟨memo, some cfg⟩, 0, resolveCalls⟩

/-- The module-level envTagCache right after clearEnvTagCache(). -/
def clearEnvTagCache : List (String × String) := []

/-- Sequential fetchSiteContent calls threading the process state; returns
the final state and the total number of env-tag resolve calls. -/
def runSeq (ws : List SCWorld) (st : SCState) (o : SCOpts) : SCState × Nat :=
  match ws with
  | [] => (st, 0)
  | w :: rest =>
      let r := fetchSiteContent w st o
      let tail := runSeq rest r.state o
      (tail.1, r.resolveCalls + tail.2)

/- ------------------------------------------------------------------ -/
/-  createFetchSiteContent variant (closure with internal full-content  -/
/-  caching; the variant whose fetchSiteContent validates the token)    -/
/- ------------------------------------------------------------------ -/

/-- isDevToken: token.startsWith("dev-"). -/
def isDevToken (token : String) : Bool :=
  jsStartsWith token "dev-"

namespace SleekP2

/-- Errors of the fetchSiteContent of this variant: the two configuration errors
thrown before any network I/O, and the fetch error for non-success
responses. -/
inductive P2Err where
  | configMissingToken
  | configUnknownDevEnv (devEnv : String)
  | fetchFailed (status : Nat) (message : String)
  deriving Repr, DecidableEq

/-- getBaseUrl of this variant: split the token on the dash into an
environment class and a site id (a missing id interpolates as undefined)
and select the host scheme by devEnv; an unknown devEnv throws. -/
def getBaseUrl (token devEnv : String) : Except String String :=
  let env := String.mk ((splitDash token.data).headD [])
  let siteId :=
    match splitDash token.data with
    | _ :: second :: _ => String.mk second
    | _ => "undefined"
  if devEnv = "production" then Except.ok ("https://" ++ env ++ ".sleekcms.com/" ++ siteId)
  else if devEnv = "development" then Except.ok ("https://" ++ env ++ ".sleekcms.net/" ++ siteId)
  else if devEnv = "localhost" then Except.ok ("http://localhost:9001/" ++ env ++ "/" ++ siteId)
  else Except.error ("[SleekCMS] Unknown devEnv: " ++ devEnv)

/-- Options captured by the createFetchSiteContent closure.  cacheOption is
the truthiness of options.cache. -/
structure P2Cfg where
  siteToken : String
  env : String
  mock : Bool
  devEnv : String
  cacheOption : Bool

/-- Mutable state of the closure: the cached full document and the cacheMode
flag. -/
structure P2State where
  cachedContent : Option Json
  cacheMode : Bool

/-- The closure state right after createFetchSiteContent(options). -/
def initState (cfg : P2Cfg) : P2State :=
  ⟨none, cfg.cacheOption || (cfg.mock && isDevToken cfg.siteToken)⟩

/-- The fetchSiteContent closure returned by createFetchSiteContent.
Validates the credential first, serves from the cached document when one is
present, otherwise builds the url (getBaseUrl throwing on an unknown
devEnv), performs one GET, and caches the document after a query-less
fetch.  Returns (result, new state, number of network calls). -/
def fetchSiteContent (net : String → Except (Nat × String) Json)
    (jmes : Json → String → Json) (cfg : P2Cfg) (st : P2State)
    (searchQuery : Option String) : Except P2Err Json × P2State × Nat :=
  if cfg.siteToken = "" then (Except.error P2Err.configMissingToken, st, 0)
  else
    match st.cachedContent with
    | some cached => (Except.ok (applyJmes jmes cached searchQuery), st, 0)
    | none =>
        match getBaseUrl cfg.siteToken cfg.devEnv with
        | Except.error _ => (Except.error (P2Err.configUnknownDevEnv cfg.devEnv), st, 0)
        | Except.ok baseUrl =>
            let dev := isDevToken cfg.siteToken
            let u0 := baseUrl ++ "/" ++ cfg.env
            let u1 :=
              if strOptTruthy searchQuery && !st.cacheMode then
                u0 ++ "?search=" ++ searchQuery.getD ""
              else u0
            let url :=
              if cfg.mock && dev then
                u1 ++ (if strOptTruthy searchQuery && !st.cacheMode then "&" else "?") ++ "mock=true"
              else u1
            match net url with
            | Except.error e => (Except.error (P2Err.fetchFailed e.1 e.2), st, 1)
            | Except.ok data =>
                let st' :=
                  if strOptTruthy searchQuery then st
                  else P2State.mk (some data) true
                (Except.ok data, st', 1)

end SleekP2

/- ------------------------------------------------------------------ -/
/-  Concrete documents and environments for witnesses and              -/
/-  counterexamples                                                    -/
/- ------------------------------------------------------------------ -/

/-- A page at the site root with no slug. -/
def homePage : Json :=
  Json.obj [("_path", Json.str "/"), ("title", Json.str "Home")]

/-- A blog page with a string slug. -/
def blogPage : Json :=
  Json.obj [("_path", Json.str "/blog/a"), ("_slug", Json.str "a")]

/-- A page whose path extends the literal prefix of the blog section without
being inside it (the segment-unaware match example). -/
def bloggingPage : Json :=
  Json.obj [("_path", Json.str "/blogging"), ("_slug", Json.str "x")]

/-- A blog page that declares a non-string _slug. -/
def numSlugPage : Json :=
  Json.obj [("_path", Json.str "/blog/n"), ("_slug", Json.num 3)]

/-- A small content document. -/
def demoDoc : Json :=
  Json.obj [("pages", Json.arr [homePage, blogPage, bloggingPage, numSlugPage])]

/-- A jmespath stand-in (the evaluator is external; the verified paths never
depend on it). -/
def idJmes : Json → String → Json := fun d _ => d

/-- A fetch collaborator serving the demo document and its facets. -/
def demoFetch : Option String → Json := fun s =>
  match s with
  | some "pages" => Json.arr [homePage, blogPage, bloggingPage, numSlugPage]
  | _ => demoDoc

/-- Async-client environment over the demo document. -/
def demoEnv : AsyncEnv := ⟨demoFetch, idJmes⟩

/- ------------------------------------------------------------------ -/
/-  Helper lemmas                                                      -/
/- ------------------------------------------------------------------ -/

/-- A post-upgrade accessor call delegates to the internal sync client on
the stored document, leaves the state unchanged and performs no
fetchSiteContent invocation. -/
theorem asyncStep_upgraded (E : AsyncEnv) (d : Json) (c : Call) :
    asyncStep E (some d) c = (syncCall E.jmes d c, some d, 0) := by
  cases c <;> rfl

/-- An upgraded async client stays upgraded and performs zero
fetchSiteContent invocations over any sequence of calls. -/
theorem runCalls_upgraded (E : AsyncEnv) (d : Json) (cs : List Call) :
    runCalls E (some d) cs = (some d, 0) := by
  induction cs with
  | nil => rfl
  | cons c cs ih => simp [runCalls, asyncStep_upgraded, ih]

/-- A query-less getContent call always leaves the client upgraded. -/
theorem getContent_none_installs (E : AsyncEnv) (st : Option Json) :
    ∃ d, (asyncStep E st (Call.getContent none)).2.1 = some d := by
  cases st with
  | some d => exact ⟨d, rfl⟩
  | none => exact ⟨E.fetch none, rfl⟩

/-- Updating an association list makes the key read back the new value. -/
theorem getAssoc_setAssoc {α : Type} (m : List (String × α)) (k : String) (v : α) :
    getAssoc (setAssoc m k v) k = some v := by
  induction m with
  | nil => simp [setAssoc, getAssoc]
  | cons a m ih =>
      by_cases h : a.1 = k <;> simp [setAssoc, getAssoc, h, ih]

/-- The url, memo and resolve-call count of a fetchSiteContent call are
those produced by its resolveEnv block, whatever the cache does. -/
theorem fetchSiteContent_resolve_fields (w : SCWorld) (st : SCState) (o : SCOpts) :
    (fetchSiteContent w st o).url = (resolveStep w st.memo o).1 ∧
    (fetchSiteContent w st o).state.memo = (resolveStep w st.memo o).2.1 ∧
    (fetchSiteContent w st o).resolveCalls = (resolveStep w st.memo o).2.2 := by
  refine ⟨?_, ?_, ?_⟩ <;>
    · unfold fetchSiteContent
      dsimp only
      repeat' split
      all_goals rfl

/-- resolveStep on a memo hit with a truthy stored tag: no resolve call, the
memo is unchanged, and the url is built from the stored tag. -/
theorem resolveStep_hit (w : SCWorld) (memo : List (String × String)) (o : SCOpts)
    (tag : String) (hre : o.resolveEnv = true)
    (h : getAssoc memo (memoKey o.siteToken o.env) = some tag) (ht : tag ≠ "") :
    resolveStep w memo o = (getUrl o.siteToken tag o.search o.lang, memo, 0) := by
  simp [resolveStep, hre, h, ht]

/-- resolveStep on a memo miss: one resolve call, whose result is stored. -/
theorem resolveStep_miss (w : SCWorld) (memo : List (String × String)) (o : SCOpts)
    (hre : o.resolveEnv = true)
    (h : getAssoc memo (memoKey o.siteToken o.env) = none) :
    resolveStep w memo o
      = (getUrl o.siteToken (fetchEnvTag w.resolveOutcome o.env) o.search o.lang,
         setAssoc memo (memoKey o.siteToken o.env) (fetchEnvTag w.resolveOutcome o.env), 1) := by
  simp [resolveStep, hre, h]

/-- A failed or tag-less resolution returns a nonempty alias, and a
successful one returns its nonempty tag: the stored value is never the empty
string when the alias is nonempty. -/
theorem fetchEnvTag_ne_empty (o : ResolveOutcome) (env : String) (h : env ≠ "") :
    fetchEnvTag o env ≠ "" := by
  unfold fetchEnvTag
  cases o with
  | fetchThrew => exact h
  | notOk => exact h
  | ok t =>
      cases t with
      | none => exact h
      | some s => by_cases hs : s = "" <;> simp [hs, h]

/- ------------------------------------------------------------------ -/
/-  Claim theorems                                                     -/
/- ------------------------------------------------------------------ -/

/-- Claim C2: with a conforming cache adapter and an expiration window of m
minutes, a fetchSiteContent call finding an envelope entry written at time T
under its url returns the cached data with zero network calls when strictly
before T + m*60*1000, and at or after that instant performs exactly one
network call and, on success, overwrites the entry with the fresh data and
the current timestamp. -/
theorem cache_expiration_correct (w : SCWorld) (st : SCState) (o : SCOpts) (cfg : CacheCfg)
    (data fresh : Json) (T : Nat)
    (hc : st.cache = some cfg) (hr : cfg.readThrows = false) (hw : cfg.writeThrows = false)
    (hre : o.resolveEnv = false) (hm : o.cacheMinutes ≠ 0)
    (hs : getAssoc cfg.store (getUrl o.siteToken o.env o.search o.lang)
        = some (CacheSlot.envelope data T))
    (hres : w.contentResp (getUrl o.siteToken o.env o.search o.lang) = Except.ok fresh) :
    (w.now < T + o.cacheMinutes * 60 * 1000 →
      (fetchSiteContent w st o).result = Except.ok data ∧
      (fetchSiteContent w st o).netCalls = 0 ∧
      (fetchSiteContent w st o).state.cache = some cfg) ∧
    (T + o.cacheMinutes * 60 * 1000 ≤ w.now →
      (fetchSiteContent w st o).netCalls = 1 ∧
      (fetchSiteContent w st o).result = Except.ok fresh ∧
      (fetchSiteContent w st o).state.cache = some
        (CacheCfg.mk
          (setAssoc cfg.store (getUrl o.siteToken o.env o.search o.lang)
            (CacheSlot.envelope fresh w.now))
          cfg.readThrows cfg.writeThrows)) := by
  have hrs : resolveStep w st.memo o = (getUrl o.siteToken o.env o.search o.lang, st.memo, 0) := by
    simp [resolveStep, hre]
  constructor
  · intro hlt
    have hcond : ¬ ((o.cacheMinutes : Int) * 60 * 1000 ≤ (w.now : Int) - (T : Int)) := by
      omega
    simp [fetchSiteContent, hrs, hc, hr, hs, hm, hcond]
  · intro hge
    have hcond : ((o.cacheMinutes : Int) * 60 * 1000 ≤ (w.now : Int) - (T : Int)) := by
      omega
    simp [fetchSiteContent, hrs, hc, hr, hs, hm, hcond, fetchAndCache, hres, hw]

/-- Concrete options for cache witnesses: production token, latest alias, no
resolveEnv, a one-minute expiration window. -/
def wOpts : SCOpts := ⟨"prod-site123", "latest", false, none, none, 1⟩

/-- The concrete cache key computed for wOpts. -/
def wUrl : String := getUrl "prod-site123" "latest" none none

/-- A fresh document returned by the network in witnesses. -/
def freshDoc : Json := Json.obj [("fresh", Json.bool true)]

/-- A conforming adapter holding an envelope entry written at time 1000. -/
def wCfg : CacheCfg := ⟨[(wUrl, CacheSlot.envelope demoDoc 1000)], false, false⟩

/-- Process state with the conforming adapter and an empty env-tag memo. -/
def wSt : SCState := ⟨[], some wCfg⟩

/-- A world at time 61000 (the entry is exactly expired) whose content GET
succeeds with the fresh document. -/
def wWorld : SCWorld := ⟨ResolveOutcome.notOk, fun _ => Except.ok freshDoc, 61000⟩

/-- Witness for cache_expiration_correct: at time 61000 = 1000 + 1 minute the
entry written at 1000 is refetched in one network call and overwritten. -/
theorem cache_expiration_correct_witness :
    1000 + wOpts.cacheMinutes * 60 * 1000 ≤ wWorld.now ∧
    ((fetchSiteContent wWorld wSt wOpts).netCalls = 1 ∧
     (fetchSiteContent wWorld wSt wOpts).result = Except.ok freshDoc ∧
     (fetchSiteContent wWorld wSt wOpts).state.cache = some
       (CacheCfg.mk
         (setAssoc wCfg.store (getUrl wOpts.siteToken wOpts.env wOpts.search wOpts.lang)
           (CacheSlot.envelope freshDoc wWorld.now))
         wCfg.readThrows wCfg.writeThrows)) :=
  ⟨by decide,
   (cache_expiration_correct wWorld wSt wOpts wCfg demoDoc freshDoc 1000
      rfl rfl rfl rfl (by decide) rfl rfl).2 (by decide)⟩

/-- Claim C3: a cache read failure — the adapter getItem throwing, or stored
content JSON.parse rejects — is treated as a miss and falls through to
exactly one network fetch whose result is returned to the caller, and a
cache write failure after a successful fetch is swallowed: the fetched data
is still returned, no error is propagated, and the store is unchanged. -/
theorem cache_failures_never_surface (w : SCWorld) (st : SCState) (o : SCOpts)
    (cfg : CacheCfg) (d : Json) (u : String)
    (hc : st.cache = some cfg)
    (hu : (resolveStep w st.memo o).1 = u)
    (hres : w.contentResp u = Except.ok d) :
    (cfg.readThrows = true →
        (fetchSiteContent w st o).result = Except.ok d ∧
        (fetchSiteContent w st o).netCalls = 1) ∧
    (cfg.readThrows = false → getAssoc cfg.store u = some CacheSlot.malformed →
        (fetchSiteContent w st o).result = Except.ok d ∧
        (fetchSiteContent w st o).netCalls = 1) ∧
    (cfg.readThrows = false → cfg.writeThrows = true → getAssoc cfg.store u = none →
        (fetchSiteContent w st o).result = Except.ok d ∧
        (fetchSiteContent w st o).netCalls = 1 ∧
        (fetchSiteContent w st o).state.cache = some cfg) := by
  refine ⟨?_, ?_, ?_⟩
  · intro hr
    simp [fetchSiteContent, hu, hc, hr, fetchAndCache, hres]
  · intro hr hmal
    simp [fetchSiteContent, hu, hc, hr, hmal, fetchAndCache, hres]
  · intro hr hwt hmiss
    simp [fetchSiteContent, hu, hc, hr, hmiss, fetchAndCache, hres, hwt]

/-- An adapter whose getItem throws. -/
def wThrowCfg : CacheCfg := ⟨[], true, false⟩

/-- Process state with the throwing adapter. -/
def wThrowSt : SCState := ⟨[], some wThrowCfg⟩

/-- Witness for cache_failures_never_surface: a throwing getItem still
yields the fetched document in one network call. -/
theorem cache_failures_never_surface_witness :
    wThrowCfg.readThrows = true ∧
    ((fetchSiteContent wWorld wThrowSt wOpts).result = Except.ok freshDoc ∧
     (fetchSiteContent wWorld wThrowSt wOpts).netCalls = 1) :=
  ⟨rfl,
   (cache_failures_never_surface wWorld wThrowSt wOpts wThrowCfg freshDoc wUrl
      rfl rfl rfl).1 rfl⟩

/-- Claim C10: when the cache holds an expired envelope entry and the
refetch fails, the error is not propagated to the caller — the expired
cached data is returned after exactly one network attempt, and the store is
left unchanged.  A FetchError can thus only reach the caller when no
readable cache entry exists. -/
theorem stale_cache_fallback (w : SCWorld) (st : SCState) (o : SCOpts)
    (cfg : CacheCfg) (v : Json) (ts : Nat) (e : FetchErr) (u : String)
    (hc : st.cache = some cfg) (hr : cfg.readThrows = false)
    (hu : (resolveStep w st.memo o).1 = u)
    (hs : getAssoc cfg.store u = some (CacheSlot.envelope v ts))
    (hm : o.cacheMinutes ≠ 0)
    (hexp : ts + o.cacheMinutes * 60 * 1000 ≤ w.now)
    (herr : w.contentResp u = Except.error e) :
    (fetchSiteContent w st o).result = Except.ok v ∧
    (fetchSiteContent w st o).netCalls = 1 ∧
    (fetchSiteContent w st o).state.cache = some cfg := by
  have hcond : ((o.cacheMinutes : Int) * 60 * 1000 ≤ (w.now : Int) - (ts : Int)) := by
    omega
  simp [fetchSiteContent, hu, hc, hr, hs, hm, hcond, fetchAndCache, herr]

/-- A world at time 61000 whose content GET fails with a 500. -/
def wErrWorld : SCWorld := ⟨ResolveOutcome.notOk, fun _ => Except.error ⟨500, "boom"⟩, 61000⟩

/-- Witness for stale_cache_fallback: the expired demo entry is served when
the refetch returns a 500. -/
theorem stale_cache_fallback_witness :
    1000 + wOpts.cacheMinutes * 60 * 1000 ≤ wErrWorld.now ∧
    ((fetchSiteContent wErrWorld wSt wOpts).result = Except.ok demoDoc ∧
     (fetchSiteContent wErrWorld wSt wOpts).netCalls = 1 ∧
     (fetchSiteContent wErrWorld wSt wOpts).state.cache = some wCfg) :=
  ⟨by decide,
   stale_cache_fallback wErrWorld wSt wOpts wCfg demoDoc 1000 ⟨500, "boom"⟩ wUrl
     rfl rfl rfl rfl (by decide) (by decide) rfl⟩

/-- Once the memo holds a truthy tag for the (credential, alias) key, any
number of further sequential fetchSiteContent calls perform zero resolve
requests. -/
theorem runSeq_memoized (o : SCOpts) (tag : String)
    (hre : o.resolveEnv = true) (ht : tag ≠ "")
    (ws : List SCWorld) (st : SCState)
    (h : getAssoc st.memo (memoKey o.siteToken o.env) = some tag) :
    (runSeq ws st o).2 = 0 := by
  induction ws generalizing st with
  | nil => rfl
  | cons w rest ih =>
      have hf := fetchSiteContent_resolve_fields w st o
      have hrs := resolveStep_hit w st.memo o tag hre h ht
      have h1 : (fetchSiteContent w st o).resolveCalls = 0 := by
        rw [hf.2.2, hrs]
      have h2 : getAssoc (fetchSiteContent w st o).state.memo (memoKey o.siteToken o.env)
          = some tag := by
        rw [hf.2.1, hrs]
        exact h
      simp [runSeq, h1, ih _ h2]

/-- Claim C7 (amended): for every (credential, alias) pair with a nonempty
alias, sequential fetchSiteContent calls under resolveEnv perform the
resolve request at most once per process: starting from a memo with no entry
for the pair, any sequence of calls makes at most one resolve call; whenever
the memo holds a (necessarily truthy) tag for the pair, a fetch performs
zero resolve calls, leaves the memo unchanged and uses the url of the stored tag;
and clearEnvTagCache empties the memo. -/
theorem env_tag_memoized_amended (ws : List SCWorld) (st : SCState) (o : SCOpts)
    (w2 : SCWorld) (st2 : SCState) (tag : String)
    (hre : o.resolveEnv = true) (henv : o.env ≠ "")
    (h0 : getAssoc st.memo (memoKey o.siteToken o.env) = none) :
    (runSeq ws st o).2 ≤ 1 ∧
    (getAssoc st2.memo (memoKey o.siteToken o.env) = some tag → tag ≠ "" →
      (fetchSiteContent w2 st2 o).resolveCalls = 0 ∧
      (fetchSiteContent w2 st2 o).state.memo = st2.memo ∧
      (fetchSiteContent w2 st2 o).url = getUrl o.siteToken tag o.search o.lang) ∧
    getAssoc clearEnvTagCache (memoKey o.siteToken o.env) = none := by
  refine ⟨?_, ?_, rfl⟩
  · cases ws with
    | nil => simp [runSeq]
    | cons w rest =>
        have hf := fetchSiteContent_resolve_fields w st o
        have hrs := resolveStep_miss w st.memo o hre h0
        have h1 : (fetchSiteContent w st o).resolveCalls = 1 := by
          rw [hf.2.2, hrs]
        have htag : fetchEnvTag w.resolveOutcome o.env ≠ "" :=
          fetchEnvTag_ne_empty _ _ henv
        have h2 : getAssoc (fetchSiteContent w st o).state.memo (memoKey o.siteToken o.env)
            = some (fetchEnvTag w.resolveOutcome o.env) := by
          rw [hf.2.1, hrs]
          exact getAssoc_setAssoc _ _ _
        have h3 := runSeq_memoized o (fetchEnvTag w.resolveOutcome o.env) hre htag rest
          (fetchSiteContent w st o).state h2
        simp [runSeq, h1, h3]
  · intro hhit ht
    have hf := fetchSiteContent_resolve_fields w2 st2 o
    have hrs := resolveStep_hit w2 st2.memo o tag hre hhit ht
    refine ⟨?_, ?_, ?_⟩
    · rw [hf.2.2, hrs]
    · rw [hf.2.1, hrs]
    · rw [hf.1, hrs]

/-- Options with the empty alias and resolveEnv enabled. -/
def c7Opts : SCOpts := ⟨"t", "", true, none, none, 0⟩

/-- A world whose resolve POST throws. -/
def c7World : SCWorld := ⟨ResolveOutcome.fetchThrew, fun _ => Except.ok Json.null, 0⟩

/-- Claim C7 counterexample: for the (credential, alias) pair with the empty
alias and a failing resolution, the fallback alias (the empty string) is
stored in the memo, but the source re-tests the stored tag for truthiness
(`if (!tag)`), so every sequential fetch resolves again: two calls perform
two resolve requests, refuting "at most once per process" as stated for
every pair. -/
theorem env_tag_resolved_twice_for_empty_alias :
    (runSeq [c7World, c7World] ⟨[], none⟩ c7Opts).2 = 2 := rfl

/-- Options with a nonempty alias and resolveEnv enabled. -/
def c7wOpts : SCOpts := ⟨"t", "latest", true, none, none, 0⟩

/-- A world whose resolve POST succeeds with tag abc123. -/
def c7wWorld : SCWorld := ⟨ResolveOutcome.ok (some "abc123"), fun _ => Except.ok Json.null, 0⟩

/-- Witness for env_tag_memoized_amended: two sequential fetches under the
latest alias resolve at most once, and a memo already holding abc123 is
reused with zero resolve calls. -/
theorem env_tag_memoized_amended_witness :
    getAssoc ([] : List (String × String)) (memoKey "t" "latest") = none ∧
    ((runSeq [c7wWorld, c7wWorld] ⟨[], none⟩ c7wOpts).2 ≤ 1 ∧
     (getAssoc [(memoKey "t" "latest", "abc123")] (memoKey c7wOpts.siteToken c7wOpts.env)
        = some "abc123" → "abc123" ≠ "" →
       (fetchSiteContent c7wWorld ⟨[(memoKey "t" "latest", "abc123")], none⟩ c7wOpts).resolveCalls = 0 ∧
       (fetchSiteContent c7wWorld ⟨[(memoKey "t" "latest", "abc123")], none⟩ c7wOpts).state.memo
          = [(memoKey "t" "latest", "abc123")] ∧
       (fetchSiteContent c7wWorld ⟨[(memoKey "t" "latest", "abc123")], none⟩ c7wOpts).url
          = getUrl c7wOpts.siteToken "abc123" c7wOpts.search c7wOpts.lang) ∧
     getAssoc clearEnvTagCache (memoKey c7wOpts.siteToken c7wOpts.env) = none) :=
  ⟨rfl,
   env_tag_memoized_amended [c7wWorld, c7wWorld] ⟨[], none⟩ c7wOpts c7wWorld
     ⟨[(memoKey "t" "latest", "abc123")], none⟩ "abc123" rfl (by decide) rfl⟩

/-- Claim C6: environment-tag resolution is non-fatal: on a failed resolve
request (the POST throws, the response is non-success, or the body has no
tag field) fetchEnvTag returns the alias string unchanged instead of
raising, and the subsequent content fetch under resolveEnv proceeds on the
url built from the literal alias. -/
theorem env_tag_failure_falls_back (o : ResolveOutcome) (env : String)
    (w : SCWorld) (st : SCState) (opts : SCOpts)
    (hfail : o = ResolveOutcome.fetchThrew ∨ o = ResolveOutcome.notOk ∨
      o = ResolveOutcome.ok none)
    (hw : w.resolveOutcome = o) (hre : opts.resolveEnv = true) (henv : opts.env = env)
    (hmiss : getAssoc st.memo (memoKey opts.siteToken opts.env) = none) :
    fetchEnvTag o env = env ∧
    (fetchSiteContent w st opts).url = getUrl opts.siteToken env opts.search opts.lang := by
  have h1 : fetchEnvTag o env = env := by
    rcases hfail with h | h | h <;> subst h <;> rfl
  refine ⟨h1, ?_⟩
  have hf := fetchSiteContent_resolve_fields w st opts
  have hrs := resolveStep_miss w st.memo opts hre hmiss
  rw [hf.1, hrs, hw, henv, h1]

/-- A world whose resolve POST returns ok with no tag field. -/
def c6World : SCWorld := ⟨ResolveOutcome.ok none, fun _ => Except.ok Json.null, 0⟩

/-- Witness for env_tag_failure_falls_back: an ok response with no tag field
falls back to the latest alias for both the returned tag and the content
url. -/
theorem env_tag_failure_falls_back_witness :
    (ResolveOutcome.ok (none : Option String) = ResolveOutcome.fetchThrew ∨
     ResolveOutcome.ok (none : Option String) = ResolveOutcome.notOk ∨
     ResolveOutcome.ok (none : Option String) = ResolveOutcome.ok none) ∧
    (fetchEnvTag (ResolveOutcome.ok none) "latest" = "latest" ∧
     (fetchSiteContent c6World ⟨[], none⟩ c7wOpts).url
        = getUrl c7wOpts.siteToken "latest" c7wOpts.search c7wOpts.lang) :=
  ⟨Or.inr (Or.inr rfl),
   env_tag_failure_falls_back (ResolveOutcome.ok none) "latest" c6World ⟨[], none⟩ c7wOpts
     (Or.inr (Or.inr rfl)) rfl rfl rfl rfl⟩

/-- Claim C8: the createFetchSiteContent variant validates the credential
before anything else: with an empty credential every call fails with the
configuration error having built no url and performed no network or cache
I/O (the state is untouched and the outcome is the same for every devEnv
and every network behavior); and with a nonempty credential, no cached
document and an unknown environment-resolution mode, it fails with the
unknown-devEnv configuration error, again with zero network calls. -/
theorem credential_validation (net : String → Except (Nat × String) Json)
    (jmes : Json → String → Json) (cfg : SleekP2.P2Cfg) (st : SleekP2.P2State)
    (q : Option String) (hnc : st.cachedContent = none) :
    (cfg.siteToken = "" →
      SleekP2.fetchSiteContent net jmes cfg st q
        = (Except.error SleekP2.P2Err.configMissingToken, st, 0)) ∧
    (cfg.siteToken ≠ "" → cfg.devEnv ≠ "production" → cfg.devEnv ≠ "development" →
      cfg.devEnv ≠ "localhost" →
      SleekP2.fetchSiteContent net jmes cfg st q
        = (Except.error (SleekP2.P2Err.configUnknownDevEnv cfg.devEnv), st, 0)) := by
  constructor
  · intro h
    simp [SleekP2.fetchSiteContent, h]
  · intro h1 h2 h3 h4
    simp [SleekP2.fetchSiteContent, h1, hnc, SleekP2.getBaseUrl, h2, h3, h4]

/-- A closure configuration with an empty credential and a valid devEnv. -/
def c8Cfg : SleekP2.P2Cfg := ⟨"", "latest", false, "production", false⟩

/-- Witness for credential_validation: the empty credential fails fast with
the configuration error, state untouched, zero network calls. -/
theorem credential_validation_witness :
    (SleekP2.initState c8Cfg).cachedContent = none ∧
    SleekP2.fetchSiteContent (fun _ => Except.ok Json.null) idJmes c8Cfg
        (SleekP2.initState c8Cfg) none
      = (Except.error SleekP2.P2Err.configMissingToken, SleekP2.initState c8Cfg, 0) :=
  ⟨rfl,
   (credential_validation (fun _ => Except.ok Json.null) idJmes c8Cfg
      (SleekP2.initState c8Cfg) none rfl).1 rfl⟩

/-- Claim C1: once a query-less getContent call on the async client has
completed, the internal sync client is installed; afterwards every accessor
call of any kind is answered by that sync client from the stored document,
the stored document is never replaced or dropped (the transition is
one-way), and any sequence of further calls performs zero fetchSiteContent
invocations — hence zero network fetches — for the remaining lifetime of
the instance. -/
theorem async_upgrade_serves_locally (E : AsyncEnv) (st : Option Json) :
    ((asyncStep E st (Call.getContent none)).2.1).isSome = true ∧
    (∀ d c, asyncStep E (some d) c = (syncCall E.jmes d c, some d, 0)) ∧
    (∀ cs, runCalls E ((asyncStep E st (Call.getContent none)).2.1) cs
        = ((asyncStep E st (Call.getContent none)).2.1, 0)) := by
  obtain ⟨d0, hd0⟩ := getContent_none_installs E st
  refine ⟨by rw [hd0]; rfl, asyncStep_upgraded E, ?_⟩
  intro cs
  rw [hd0, runCalls_upgraded]

/-- Claim C4 (amended): for every document and every nonempty path prefix P,
getPages(P) returns exactly the filter of the document pages whose _path
starts with P — a sublist of the pages in original order whose members are
precisely the prefix-matching pages; the match is a plain string-prefix
test, so on the demo document the /blog filter also returns the page at
/blogging. -/
theorem getPages_prefix_filter (jmes : Json → String → Json) (data : Json)
    (path : String) (hp : path ≠ "") :
    syncCall jmes data (Call.getPages path)
      = Except.ok (Json.arr (((pagesOpt data).getD []).filter
          (fun p => jsStartsWith (pathStr p) path))) ∧
    (((pagesOpt data).getD []).filter
        (fun p => jsStartsWith (pathStr p) path)).Sublist ((pagesOpt data).getD []) ∧
    (∀ p ∈ (pagesOpt data).getD [],
      (p ∈ ((pagesOpt data).getD []).filter (fun q => jsStartsWith (pathStr q) path)
        ↔ jsStartsWith (pathStr p) path = true)) ∧
    syncCall jmes demoDoc (Call.getPages "/blog")
      = Except.ok (Json.arr [blogPage, bloggingPage, numSlugPage]) := by
  refine ⟨?_, List.filter_sublist _, ?_, ?_⟩
  · simp [syncCall, hp, filterPagesByPath]
  · intro p hmem
    simp [List.mem_filter, hmem]
  · rfl

/-- Witness for getPages_prefix_filter at the /blog prefix on the demo
document. -/
theorem getPages_prefix_filter_witness :
    ("/blog" ≠ "") ∧
    syncCall idJmes demoDoc (Call.getPages "/blog")
      = Except.ok (Json.arr (((pagesOpt demoDoc).getD []).filter
          (fun p => jsStartsWith (pathStr p) "/blog"))) :=
  ⟨by decide, (getPages_prefix_filter idJmes demoDoc "/blog" (by decide)).1⟩

/-- Claim C4 counterexample: at the empty path prefix (every _path starts
with the empty string, so the claim demands the full page list back) the
sync getPages instead throws the path-required error. -/
theorem getPages_empty_path_throws :
    syncCall idJmes demoDoc (Call.getPages "")
      = Except.error "[SleekCMS] path is required for getPages" := rfl

/-- extractSlugs is the prefix filter followed by extraction of the declared
string slugs: exactly the _slug values of matching pages that declare one,
in original order. -/
theorem extractSlugs_eq (pages : Option (List Json)) (path : String) :
    extractSlugs pages path
      = ((pages.getD []).filter (fun p => jsStartsWith (pathStr p) path)).filterMap slugOf := by
  unfold extractSlugs
  generalize pages.getD [] = l
  induction l with
  | nil => rfl
  | cons a l ih =>
      by_cases h : jsStartsWith (pathStr a) path <;>
        simp [List.filterMap_cons, List.filter_cons, h, ih, slugOf]

/-- Claim C5 (amended): for every document and every nonempty path prefix P,
getSlugs(P) returns exactly the _slug values of the pages whose _path starts
with P and that declare a string _slug, in original document order; a
matching page whose declared _slug is not a string contributes nothing. -/
theorem getSlugs_declared_only (jmes : Json → String → Json) (data : Json)
    (path : String) (hp : path ≠ "") :
    syncCall jmes data (Call.getSlugs path)
      = Except.ok (Json.arr ((extractSlugs (pagesOpt data) path).map Json.str)) ∧
    extractSlugs (pagesOpt data) path
      = (((pagesOpt data).getD []).filter
          (fun p => jsStartsWith (pathStr p) path)).filterMap slugOf ∧
    extractSlugs (some [numSlugPage]) "/blog" = [] := by
  exact ⟨by simp [syncCall, hp], extractSlugs_eq _ _, rfl⟩

/-- Witness for getSlugs_declared_only on the demo document: the /blog
prefix yields only the declared string slug a (the numeric slug of the
blog/n page contributes nothing, the slug x of the blogging page is included by
the plain prefix match). -/
theorem getSlugs_declared_only_witness :
    ("/blog" ≠ "") ∧
    syncCall idJmes demoDoc (Call.getSlugs "/blog")
      = Except.ok (Json.arr ((extractSlugs (pagesOpt demoDoc) "/blog").map Json.str)) :=
  ⟨by decide, (getSlugs_declared_only idJmes demoDoc "/blog" (by decide)).1⟩

/-- Claim C5 counterexample: at the empty path prefix (which the claim
quantifies over: every _path starts with it) the sync getSlugs throws the
path-required error instead of returning the slug list. -/
theorem getSlugs_empty_path_throws :
    syncCall idJmes demoDoc (Call.getSlugs "")
      = Except.error "[SleekCMS] path is required for getSlugs" := rfl

/-- When the (defensively read) path of no page equals the requested one, the
exact-match search comes back empty. -/
theorem find_page_eq_none (l : List Json) (path : String)
    (h : ∀ p ∈ l, pathStr p ≠ path) :
    l.find? (fun p => pathStr p == path) = none := by
  rw [List.find?_eq_none]
  intro x hx
  simp [h x hx]

/-- Claim C9 (amended): for every nonempty exact path matched by no page,
getPage returns the null absent marker and raises no error, and the
convention is shared: the sync client, the async client before its upgrade,
and the async client after its upgrade (which delegates to the sync client
on the stored document) all return null. -/
theorem getPage_miss_returns_null (jmes : Json → String → Json) (data : Json)
    (E : AsyncEnv) (path : String) (hp : path ≠ "")
    (hsync : ∀ p ∈ (pagesOpt data).getD [], pathStr p ≠ path)
    (hasync : ∀ p ∈ (asPagesOpt (E.fetch (some "pages"))).getD [], pathStr p ≠ path) :
    syncCall jmes data (Call.getPage path) = Except.ok Json.null ∧
    (asyncStep E none (Call.getPage path)).1 = Except.ok Json.null ∧
    (asyncStep E (some data) (Call.getPage path)).1
      = syncCall E.jmes data (Call.getPage path) ∧
    syncCall E.jmes data (Call.getPage path) = Except.ok Json.null := by
  have hfind := find_page_eq_none ((pagesOpt data).getD []) path hsync
  refine ⟨by simp [syncCall, hp, hfind], ?_, ?_, by simp [syncCall, hp, hfind]⟩
  · rcases hv : asPagesOpt (E.fetch (some "pages")) with _ | l
    · simp [asyncStep, hv]
    · have hl : ∀ p ∈ l, pathStr p ≠ path := by
        intro p hmem
        exact hasync p (by rw [hv]; exact hmem)
      simp [asyncStep, hv, find_page_eq_none l path hl]
  · rw [asyncStep_upgraded]

/-- Witness for getPage_miss_returns_null: the /about path matches no page
of the demo document in any of the three modes. -/
theorem getPage_miss_returns_null_witness :
    ("/about" ≠ "") ∧
    (syncCall idJmes demoDoc (Call.getPage "/about") = Except.ok Json.null ∧
     (asyncStep demoEnv none (Call.getPage "/about")).1 = Except.ok Json.null ∧
     (asyncStep demoEnv (some demoDoc) (Call.getPage "/about")).1
        = syncCall demoEnv.jmes demoDoc (Call.getPage "/about") ∧
     syncCall demoEnv.jmes demoDoc (Call.getPage "/about") = Except.ok Json.null) :=
  ⟨by decide,
   getPage_miss_returns_null idJmes demoDoc demoEnv "/about" (by decide)
     (by decide) (by decide)⟩

/-- Claim C9 counterexample: at the empty path (no demo page has the empty
path, so the claim demands the null marker from both clients) the sync
getPage throws the path-required error while the pre-upgrade async getPage
returns null: the convention is neither error-free nor shared there. -/
theorem getPage_empty_path_convention_differs :
    syncCall idJmes demoDoc (Call.getPage "")
      = Except.error "[SleekCMS] path is required for getPage" ∧
    (asyncStep demoEnv none (Call.getPage "")).1 = Except.ok Json.null :=
  ⟨rfl, rfl⟩
